import Mathlib

set_option maxRecDepth 8192

/-!
Shallow embedding of the TSPLIB-style instance parser found in
src/mlp/src/iparser/iparser.cpp.

Conventions of the embedding:

* The std::ifstream member `fs` is modelled by `FS`: the characters not yet
  consumed plus a fail flag (failbit/eofbit).  `getline` and formatted
  integer extraction (operator>>) are modelled on this structure following
  C++ semantics.  The parser is modelled on an already opened stream, so the
  FileNotOpen path of Parse is outside the model.
* `Dist` and `Pos` (declared in the header iparser.h, which is not part of
  the sources) are modelled as `Int`; formatted extraction applies the
  32-bit int range check that the C++ numeric reader performs.
* The matrix collaborators ds::SquareMatrix and ds::Matrix (external to the
  parser per the spec) are modelled as total functions `Nat -> Nat -> Int`;
  freshly allocated storage is modelled as zero-filled (`zeroM`).  Every
  cell that any theorem below inspects is either explicitly cleared by the
  parser (the diagonal pre-zeroing loop) or written by a builder, so the
  fill value never shows through.
* Error kinds name the distinct cerr diagnostics of the source, following
  the error taxonomy of the spec.
* `StepRes.fault` / `PResult.fault` mark executions in which the C++ code
  throws an exception no handler catches (std::stoi on a non-numeric
  DIMENSION value) or leaves the language semantics (std::vector access at
  a negative index in ParseDisplayData).
* `PResult.diverge` marks executions in which the C++ driver loop never
  terminates: once the stream is exhausted, std::getline keeps yielding an
  empty line, which the blank-line filter keeps skipping, forever.
-/

/-- The character class of the constant WHITESPACE = " \n\r\t\f\v". -/
def isWS (c : Char) : Bool :=
  c == ' ' || c == '\n' || c == '\r' || c == '\t' || c == '\x0c' || c == '\x0b'

/-- The character class [ \t] used between the colon separator and the value. -/
def isSpaceTab (c : Char) : Bool :=
  c == ' ' || c == '\t'

/-- The identifier class [a-zA-Z0-9_] of the entry-key regex. -/
def isWordChar (c : Char) : Bool :=
  c.isAlphanum || c == '_'

/-- Value of a run of decimal digits, most significant first. -/
def digitsVal (l : List Char) : Nat :=
  l.foldl (fun a c => a * 10 + (c.toNat - 48)) 0

/-- Model of the std::ifstream: remaining characters and the fail state. -/
structure FS where
  data : List Char
  failed : Bool
deriving DecidableEq

/-- The stream holding the whole file contents, in the initial good state. -/
def fsOf (s : String) : FS :=
  ⟨s.data, false⟩

/-- Model of std::getline on the stream: on a failed stream the line is
erased and nothing happens; on an exhausted stream the failbit is set and
the line is empty; otherwise characters up to the next newline are
extracted and the newline is consumed. -/
def getline (fs : FS) : String × FS :=
  if fs.failed then ("", fs)
  else if fs.data = [] then ("", ⟨[], true⟩)
  else
    ((fs.data.takeWhile fun c => !(c == '\n')).asString,
     ⟨(fs.data.dropWhile fun c => !(c == '\n')).drop 1, false⟩)

/-- Model of is_blank: the line matches the all-whitespace regex.  The
regex_error catch branch of is_blank can not fire for this fixed, valid
pattern, so the optional is always populated in the model. -/
def isBlankLine (s : String) : Bool :=
  s.data.all isWS

/-- One bounded step list for the inner line loop of Parse; see
`getNonBlank`. -/
def getNonBlankAux : Nat → FS → Option (String × FS)
  | 0, _ => none
  | c + 1, fs =>
    if fs.failed = true ∨ fs.data = [] then none
    else if isBlankLine (getline fs).1 then getNonBlankAux c (getline fs).2
    else some (getline fs)

/-- The inner while loop of Parse: repeatedly getline until a non-blank
line appears.  In the C++ code this loop has no exit for a failed or
exhausted stream: getline then yields an empty line forever and the loop
never terminates; that situation is the `none` result here.  Every
iteration on a good, non-empty stream consumes at least one character, so
the bound `fs.data.length + 1` is never the reason for a `none`. -/
def getNonBlank (fs : FS) : Option (String × FS) :=
  getNonBlankAux (fs.data.length + 1) fs

/-- Formatted extraction of an integer from a character list: skip
whitespace, then an optional sign and a non-empty digit run, rejecting
values outside the 32-bit int range. -/
def readIntCore (l : List Char) : Option (Int × List Char) :=
  let d := l.dropWhile isWS
  let sd : Bool × List Char :=
    match d with
    | [] => (false, [])
    | c :: r => if c = '-' then (true, r) else if c = '+' then (false, r) else (false, c :: r)
  let ds := sd.2.takeWhile Char.isDigit
  if ds = [] then none
  else
    let v : Int := if sd.1 then -(digitsVal ds : Int) else (digitsVal ds : Int)
    if v < -2147483648 ∨ 2147483647 < v then none
    else some (v, sd.2.drop ds.length)

/-- Model of `fs >> x` for a numeric x, as the builders use it: they test
the stream state and abort on failure, so a failure is `none`. -/
def readInt (fs : FS) : Option (Int × FS) :=
  if fs.failed then none
  else
    match readIntCore fs.data with
    | none => none
    | some (v, rest) => some (v, ⟨rest, false⟩)

/-- Model of `fs >> x` where the code never tests the stream state
(ParseDisplayData).  Since C++11 a failed formatted extraction stores 0 in
the target and sets the failbit; the code then keeps using the 0. -/
def readIntD (fs : FS) : Int × FS :=
  match readInt fs with
  | none => (0, ⟨fs.data, true⟩)
  | some (v, fs') => (v, fs')

/-- Model of std::stoi as used on the DIMENSION value: same text format as
formatted extraction; `none` models a thrown std::invalid_argument (no
digits) or std::out_of_range (outside int), exceptions the parser never
catches. -/
def stoi (s : String) : Option Int :=
  match readIntCore s.data with
  | none => none
  | some (v, _) => some v

/-- The distance-matrix contents, addressable by (row, column). -/
def DMat := Nat → Nat → Int

/-- Freshly allocated matrix storage (see the module comment). -/
def zeroM : DMat := fun _ _ => 0

/-- Write one cell: `(*m)[i][j] = v`. -/
def mset (m : DMat) (i j : Nat) (v : Int) : DMat :=
  fun a b => if a = i ∧ b = j then v else m a b

/-- The symmetric-fill write `(*m)[i][j] = (*m)[j][i] = v`. -/
def msetSym (m : DMat) (i j : Nat) (v : Int) : DMat :=
  mset (mset m i j v) j i v

/-- Read back the top-left n-by-n block as rows of values. -/
def matToLists (n : Nat) (m : DMat) : List (List Int) :=
  (List.range n).map fun i => (List.range n).map fun j => m i j

/-- The diagonal pre-zeroing loop of ParseEdgeWeights:
`for i < n: (*dmatrix)[i][i] = 0`. -/
def clearDiag (n : Nat) (m : DMat) : DMat :=
  (List.range n).foldl (fun acc i => mset acc i i 0) m

/-- Result of a matrix builder: the populated matrix and the advanced
stream, or the (row, column) coordinate reported by matrixParsingError. -/
inductive MRes where
  | ok (m : DMat) (fs : FS)
  | err (i j : Nat)

/-- Inner loop of buildFullMatrix over one row; the last argument counts
the remaining iterations of `for j < n`. -/
def fullRowLoop : FS → DMat → Nat → Nat → Nat → MRes
  | fs, m, _, _, 0 => .ok m fs
  | fs, m, i, j, c + 1 =>
    match readInt fs with
    | none => .err i j
    | some (v, fs') => fullRowLoop fs' (mset m i j v) i (j + 1) c

/-- Outer loop of buildFullMatrix over the rows. -/
def fullOuterLoop : FS → DMat → Nat → Nat → Nat → MRes
  | fs, m, _, _, 0 => .ok m fs
  | fs, m, n, i, c + 1 =>
    match fullRowLoop fs m i 0 n with
    | .err a b => .err a b
    | .ok m' fs' => fullOuterLoop fs' m' n (i + 1) c

/-- buildFullMatrix: read n*n values row-major, each into its own cell. -/
def buildFullMatrix (fs : FS) (n : Nat) (m : DMat) : MRes :=
  fullOuterLoop fs m n 0 n

/-- Inner loop of buildLowDiagRow over row i: `for j <= i`, mirroring each
value into (i,j) and (j,i). -/
def lowDiagRowLoop : FS → DMat → Nat → Nat → Nat → MRes
  | fs, m, _, _, 0 => .ok m fs
  | fs, m, i, j, c + 1 =>
    match readInt fs with
    | none => .err i j
    | some (v, fs') => lowDiagRowLoop fs' (msetSym m i j v) i (j + 1) c

/-- Outer loop of buildLowDiagRow: row i reads i+1 values (j = 0..i). -/
def lowDiagOuterLoop : FS → DMat → Nat → Nat → MRes
  | fs, m, _, 0 => .ok m fs
  | fs, m, i, c + 1 =>
    match lowDiagRowLoop fs m i 0 (i + 1) with
    | .err a b => .err a b
    | .ok m' fs' => lowDiagOuterLoop fs' m' (i + 1) c

/-- buildLowDiagRow: read the lower triangle including the diagonal
row-major, mirroring each value. -/
def buildLowDiagRow (fs : FS) (n : Nat) (m : DMat) : MRes :=
  lowDiagOuterLoop fs m 0 n

/-- Inner loop of buildUpperRow over row i: `for j in i+1 .. n-1`,
mirroring each value into (i,j) and (j,i). -/
def upperRowLoop : FS → DMat → Nat → Nat → Nat → MRes
  | fs, m, _, _, 0 => .ok m fs
  | fs, m, i, j, c + 1 =>
    match readInt fs with
    | none => .err i j
    | some (v, fs') => upperRowLoop fs' (msetSym m i j v) i (j + 1) c

/-- Outer loop of buildUpperRow: row i reads n-(i+1) values. -/
def upperOuterLoop : FS → DMat → Nat → Nat → Nat → MRes
  | fs, m, _, _, 0 => .ok m fs
  | fs, m, n, i, c + 1 =>
    match upperRowLoop fs m i (i + 1) (n - (i + 1)) with
    | .err a b => .err a b
    | .ok m' fs' => upperOuterLoop fs' m' n (i + 1) c

/-- buildUpperRow: read the strict upper triangle row-major, mirroring
each value; the diagonal is never written. -/
def buildUpperRow (fs : FS) (n : Nat) (m : DMat) : MRes :=
  upperOuterLoop fs m n 0 n

/-- The format registry ew_formats, in source order; lookup is first
match on the exact name, as std::find_if does. -/
def ewFormats : List (String × (FS → Nat → DMat → MRes)) :=
  [("FULL_MATRIX", buildFullMatrix),
   ("UPPER_ROW", buildUpperRow),
   ("LOWER_DIAG_ROW", buildLowDiagRow)]

/-- The typed values of the field table (VarMapValueType holds a string or
an int for the fields this parser validates). -/
inductive EntryVal where
  | str (s : String)
  | int (n : Int)
deriving DecidableEq

/-- The field table entry_map. -/
abbrev EntryMap := List (String × EntryVal)

def mapLookup (m : EntryMap) (k : String) : Option EntryVal :=
  m.lookup k

/-- Model of `entry_map.insert(std::make_pair(key, value))`: std::map
insert stores the pair only when the key is not yet present; it never
overwrites. -/
def mapInsert (m : EntryMap) (k : String) (v : EntryVal) : EntryMap :=
  match mapLookup m k with
  | some _ => m
  | none => (k, v) :: m

/-- Modelled from the spec: GetEntryValue (declared in the header
iparser.h, not part of the sources) reads a typed value from the field
table, yielding an empty optional when the key is absent or holds the
other alternative.  This is the int instance. -/
def GetEntryValueInt (m : EntryMap) (k : String) : Option Int :=
  match mapLookup m k with
  | some (.int n) => some n
  | _ => none

/-- Modelled from the spec: the string instance of GetEntryValue. -/
def GetEntryValueStr (m : EntryMap) (k : String) : Option String :=
  match mapLookup m k with
  | some (.str s) => some s
  | _ => none

/-- The parse result being assembled (the Instance of iparser.h, per the
spec data model): optional name and comment, the distance matrix with its
dimension, the display positions with their row count. -/
structure Instance where
  name : Option String
  comment : Option String
  dmatrix : Option (Nat × DMat)
  posmatrix : Option (Nat × DMat)

/-- The whole parser state threaded through the driver loop: the stream,
the field table, the instance under construction and the
parsing_specifications flag. -/
structure PState where
  fs : FS
  entry_map : EntryMap
  inst : Instance
  parsing_specifications : Bool

/-- The error taxonomy: one kind per distinct failure diagnostic of the
source (and of the spec).  The n <= 0 branch of the DIMENSION validation
returns failure without its own message; it is classified
invalidFieldValue per the spec taxonomy. -/
inductive ErrKind where
  | malformedLine
  | unsupportedField
  | invalidFieldValue
  | missingField
  | unsupportedFormat
  | matrixParseError
  | invalidNode
  | specificationAfterData
  | missingDistanceMatrix
deriving DecidableEq

/-- Result of one validation or data-section step. -/
inductive StepRes where
  | ok (st : PState)
  | err (k : ErrKind)
  | fault

/-- InstanceParser::ParseSpecification, one classified header entry. -/
def ParseSpecification (st : PState) (key value : String) : StepRes :=
  if key = "NAME" then
    .ok {st with entry_map := mapInsert st.entry_map key (.str value),
                 inst := {st.inst with name := some value}}
  else if key = "TYPE" then
    if value = "TSP" then
      .ok {st with entry_map := mapInsert st.entry_map key (.str value)}
    else .err .invalidFieldValue
  else if key = "COMMENT" then
    .ok {st with entry_map := mapInsert st.entry_map key (.str value),
                 inst := {st.inst with comment := some value}}
  else if key = "DIMENSION" then
    match stoi value with
    | none => .fault
    | some n =>
      if n ≤ 0 then .err .invalidFieldValue
      else .ok {st with entry_map := mapInsert st.entry_map key (.int n)}
  else if key = "EDGE_WEIGHT_TYPE" then
    if value = "EXPLICIT" then
      .ok {st with entry_map := mapInsert st.entry_map key (.str value)}
    else .err .invalidFieldValue
  else if key = "EDGE_WEIGHT_FORMAT" then
    .ok {st with entry_map := mapInsert st.entry_map key (.str value)}
  else if key = "NODE_COORD_TYPE" then
    if value = "NO_COORDS" then
      .ok {st with entry_map := mapInsert st.entry_map key (.str value)}
    else .err .invalidFieldValue
  else if key = "DISPLAY_DATA_TYPE" then
    if value = "TWOD_DISPLAY" ∨ value = "NO_DISPLAY" then
      .ok {st with entry_map := mapInsert st.entry_map key (.str value)}
    else .err .invalidFieldValue
  else .err .unsupportedField

/-- Result of the display-data reading loop. -/
inductive DispRes where
  | ok (pos : DMat) (fs : FS)
  | err (k : ErrKind)
  | fault

/-- The reading loop of ParseDisplayData: n triples
`fs >> node >> x >> y`; node is decremented, checked only against the
upper bound, then used to index the visited vector.  A negative node index
reaches `visited[node]` out of bounds: that is the `.fault` arm. -/
def displayLoop : FS → DMat → List Bool → Int → Nat → DispRes
  | fs, pos, _, _, 0 => .ok pos fs
  | fs, pos, visited, n, c + 1 =>
    let r1 := readIntD fs
    let r2 := readIntD r1.2
    let r3 := readIntD r2.2
    let node : Int := r1.1 - 1
    if n ≤ node then .err .invalidNode
    else if node < 0 then .fault
    else if visited.getD node.toNat false then .err .invalidNode
    else
      displayLoop r3.2 (mset (mset pos node.toNat 0 r2.1) node.toNat 1 r3.1)
        (visited.set node.toNat true) n c

/-- InstanceParser::ParseDisplayData. -/
def ParseDisplayData (st : PState) : StepRes :=
  match GetEntryValueInt st.entry_map "DIMENSION" with
  | none => .err .missingField
  | some nInt =>
    match GetEntryValueStr st.entry_map "DISPLAY_DATA_TYPE" with
    | none => .err .missingField
    | some dt =>
      if dt = "TWOD_DISPLAY" then
        match displayLoop st.fs zeroM (List.replicate nInt.toNat false) nInt nInt.toNat with
        | .ok pos fs' =>
          .ok {st with fs := fs',
                       inst := {st.inst with posmatrix := some (nInt.toNat, pos)}}
        | .err k => .err k
        | .fault => .fault
      else .err .invalidFieldValue

/-- InstanceParser::ParseEdgeWeights. -/
def ParseEdgeWeights (st : PState) : StepRes :=
  match GetEntryValueInt st.entry_map "DIMENSION" with
  | none => .err .missingField
  | some nInt =>
    match GetEntryValueStr st.entry_map "EDGE_WEIGHT_FORMAT" with
    | none => .err .missingField
    | some fmt =>
      match ewFormats.lookup fmt with
      | none => .err .unsupportedFormat
      | some builder =>
        match builder st.fs nInt.toNat (clearDiag nInt.toNat zeroM) with
        | .err _ _ => .err .matrixParseError
        | .ok m fs' =>
          .ok {st with fs := fs',
                       inst := {st.inst with dmatrix := some (nInt.toNat, m)}}

/-- InstanceParser::ParseData: dispatch on the data-section key. -/
def ParseData (st : PState) (key : String) : StepRes :=
  if key = "DISPLAY_DATA_SECTION" then ParseDisplayData st
  else if key = "EDGE_WEIGHT_SECTION" then ParseEdgeWeights st
  else .err .unsupportedField

/-- Classification of one non-blank, non-sentinel line. -/
inductive LineClass where
  | entry (key value : String)
  | marker (key : String)
  | malformed
deriving DecidableEq

/-- rtrim: drop trailing WHITESPACE characters (find_last_not_of). -/
def rtrim (l : List Char) : List Char :=
  (l.reverse.dropWhile isWS).reverse

/-- The line terminators that the dot of an ECMAScript std::regex does
not match.  The engine runs on single-byte characters, so only line feed
and carriage return are relevant. -/
def isLineTerm (c : Char) : Bool :=
  c == '\n' || c == '\r'

/-- Build the classification once the identifier run `key` and the
remainder `rest` of the line are known: the regex suffix (: )?[ \t]*(.*)
makes a colon-space remainder a header entry.  The group (.*) captures
from after the greedily consumed [ \t] run only up to the first line
terminator, because the ECMAScript dot does not match carriage return
(std::getline splits on line feed alone, so a line can hold an embedded
CR, and everything from the CR on is left out of the value); the captured
text is then right-trimmed by rtrim.  Any other remainder leaves the
colon group empty, which Parse treats as a data-section marker. -/
def mkClass (key rest : List Char) : LineClass :=
  match rest with
  | ':' :: ' ' :: val =>
    .entry key.asString
      (rtrim ((val.dropWhile isSpaceTab).takeWhile fun c => !isLineTerm c)).asString
  | _ => .marker key.asString

/-- The classification of Parse, modelling
std::regex_search(line, entry_key_regex) with
entry_key_regex = ([a-zA-Z0-9_]+)(: )?[ \t]*(.*): the search finds the
first position whose character is in the identifier class, takes the
maximal identifier run there, and the rest of the pattern always matches
the remainder.  A line with no identifier character matches nowhere: the
MalformedLine failure. -/
def classifyChars : List Char → LineClass
  | [] => .malformed
  | c :: cs =>
    if isWordChar c then mkClass (c :: cs.takeWhile isWordChar) (cs.dropWhile isWordChar)
    else classifyChars cs

def classifyLine (line : String) : LineClass :=
  classifyChars line.data

/-- Result of InstanceParser::Parse.  The C++ signature is
std::optional<Instance>; error kinds record which cerr diagnostic
accompanied the empty optional.  `outOfFuel` is the artificial bound of
the loop model; the bound chosen by `Parse` exceeds the number of
possible iterations, each of which consumes at least one character. -/
inductive PResult where
  | ok (inst : Instance)
  | err (k : ErrKind)
  | fault
  | diverge
  | outOfFuel

/-- The driver loop of InstanceParser::Parse (the while(true) state
machine): obtain a non-blank line, stop at the EOF sentinel (checking
that a distance matrix was defined), otherwise classify and dispatch.
The regex_error catch branches can not fire for the fixed, valid
patterns, so they do not appear. -/
def parseLoop : Nat → PState → PResult
  | 0, _ => .outOfFuel
  | fuel + 1, st =>
    match getNonBlank st.fs with
    | none => .diverge
    | some (line, fs1) =>
      if line = "EOF" then
        match st.inst.dmatrix with
        | none => .err .missingDistanceMatrix
        | some _ => .ok st.inst
      else
        match classifyLine line with
        | .malformed => .err .malformedLine
        | .marker key =>
          match ParseData {st with fs := fs1, parsing_specifications := false} key with
          | .ok st' => parseLoop fuel st'
          | .err k => .err k
          | .fault => .fault
        | .entry key value =>
          if st.parsing_specifications then
            match ParseSpecification {st with fs := fs1} key value with
            | .ok st' => parseLoop fuel st'
            | .err k => .err k
            | .fault => .fault
          else .err .specificationAfterData

/-- The state Parse starts from: the full file in a good stream, an empty
field table, an empty instance, header mode. -/
def initState (input : String) : PState :=
  ⟨fsOf input, [], ⟨none, none, none, none⟩, true⟩

/-- InstanceParser::Parse on the contents of an opened file. -/
def Parse (input : String) : PResult :=
  parseLoop (input.length + 1) (initState input)

/-! Projection helpers used to state properties of results that contain
matrix functions. -/

def PResult.isOk : PResult → Bool
  | .ok _ => true
  | _ => false

def PResult.matrixLists : PResult → Option (List (List Int))
  | .ok inst => inst.dmatrix.map fun p => matToLists p.1 p.2
  | _ => none

def PResult.matAt : PResult → Nat → Nat → Option Int
  | .ok inst, i, j => inst.dmatrix.map fun p => p.2 i j
  | _, _, _ => none

def MRes.cell : MRes → Nat → Nat → Option Int
  | .ok m _, i, j => some (m i j)
  | .err _ _, _, _ => none

def StepRes.entryInt : StepRes → String → Option Int
  | .ok st, k => GetEntryValueInt st.entry_map k
  | _, _ => none

/-- Validate a list of header entries in order, stopping at the first
failure (as the driver loop does). -/
def runSpecs : PState → List (String × String) → StepRes
  | st, [] => .ok st
  | st, (k, v) :: rest =>
    match ParseSpecification st k v with
    | .ok st' => runSpecs st' rest
    | .err e => .err e
    | .fault => .fault

/-- Symmetry of a matrix. -/
def MSym (m : DMat) : Prop := ∀ a b, m a b = m b a

/-- Zero diagonal of a matrix. -/
def MDiag0 (m : DMat) : Prop := ∀ a, m a a = 0

/-! Concrete inputs and states used by the theorems below. -/

/-- The acceptance file of the spec: DIMENSION 4, LOWER_DIAG_ROW, ten
edge weights. -/
def c1File : String :=
  "DIMENSION: 4\nEDGE_WEIGHT_FORMAT: LOWER_DIAG_ROW\nEDGE_WEIGHT_SECTION\n0 1 0 2 3 0 4 5 6 0\nEOF\n"

/-- A FULL_MATRIX file whose token stream is not symmetric. -/
def c2FileA : String :=
  "DIMENSION: 2\nEDGE_WEIGHT_FORMAT: FULL_MATRIX\nEDGE_WEIGHT_SECTION\n0 1 2 0\nEOF\n"

/-- A LOWER_DIAG_ROW file whose streamed diagonal entry is not zero. -/
def c2FileB : String :=
  "DIMENSION: 1\nEDGE_WEIGHT_FORMAT: LOWER_DIAG_ROW\nEDGE_WEIGHT_SECTION\n7\nEOF\n"

/-- A display section starting at node number 0: the 0-based index is -1. -/
def c6FileA : String :=
  "DIMENSION: 2\nDISPLAY_DATA_TYPE: TWOD_DISPLAY\nDISPLAY_DATA_SECTION\n0 9 9\n2 8 8\nEOF\n"

/-- A display section repeating node number 1. -/
def c6FileB : String :=
  "DIMENSION: 2\nDISPLAY_DATA_TYPE: TWOD_DISPLAY\nDISPLAY_DATA_SECTION\n1 5 5\n1 6 6\nEOF\n"

/-- A display section naming node number 3 in a 2-node instance. -/
def c6FileC : String :=
  "DIMENSION: 2\nDISPLAY_DATA_TYPE: TWOD_DISPLAY\nDISPLAY_DATA_SECTION\n3 5 5\n1 6 6\nEOF\n"

/-- A field table declaring a 1-node instance in UPPER_ROW format. -/
def dimOneUpperMap : EntryMap :=
  [("DIMENSION", EntryVal.int 1), ("EDGE_WEIGHT_FORMAT", EntryVal.str "UPPER_ROW")]

def emptyInst : Instance := ⟨none, none, none, none⟩

/-- A dispatcher-time state for a 1-node UPPER_ROW instance, and the state
ParseEdgeWeights produces from it. -/
def c2St : PState := ⟨⟨[], false⟩, dimOneUpperMap, emptyInst, false⟩

def c2StOut : PState :=
  ⟨⟨[], false⟩, dimOneUpperMap, ⟨none, none, some (1, clearDiag 1 zeroM), none⟩, false⟩

/-- A dispatcher-time state for a 1-node UPPER_ROW instance. -/
def c10St : PState := ⟨⟨[], false⟩, dimOneUpperMap, emptyInst, false⟩

/-- A header-mode state whose field table already binds DIMENSION to 3,
and the state a later COMMENT entry produces from it. -/
def c3St : PState := ⟨⟨[], false⟩, [("DIMENSION", EntryVal.int 3)], emptyInst, true⟩

def c3StC : PState :=
  ⟨⟨[], false⟩, [("COMMENT", EntryVal.str "hi"), ("DIMENSION", EntryVal.int 3)],
   ⟨none, some "hi", none, none⟩, true⟩

/-! Helper lemmas about list scanning and matrix writes. -/

theorem takeWhile_append_all {α : Type} (p : α → Bool) (l r : List α)
    (hl : ∀ c ∈ l, p c = true) (hr : ∀ c ∈ r.take 1, p c = false) :
    (l ++ r).takeWhile p = l ∧ (l ++ r).dropWhile p = r := by
  induction l with
  | nil =>
    simp only [List.nil_append]
    cases r with
    | nil => simp
    | cons c t =>
      have hc : p c = false := hr c (by simp)
      simp [List.takeWhile_cons, List.dropWhile_cons, hc]
  | cons c l ih =>
    have hc : p c = true := hl c (by simp)
    have ih' := ih (fun x hx => hl x (by simp [hx]))
    simp [List.takeWhile_cons, List.dropWhile_cons, hc, ih'.1, ih'.2]

theorem msetSym_apply (m : DMat) (i j : Nat) (v : Int) (a b : Nat) :
    msetSym m i j v a b = if (a = i ∧ b = j) ∨ (a = j ∧ b = i) then v else m a b := by
  unfold msetSym mset
  by_cases h1 : a = j ∧ b = i
  · simp [h1]
  · by_cases h2 : a = i ∧ b = j <;> simp [h1, h2]

theorem msetSym_MSym {m : DMat} (h : MSym m) (i j : Nat) (v : Int) :
    MSym (msetSym m i j v) := by
  intro a b
  rw [msetSym_apply, msetSym_apply]
  by_cases h1 : (a = i ∧ b = j) ∨ (a = j ∧ b = i)
  · have h2 : (b = i ∧ a = j) ∨ (b = j ∧ a = i) := by tauto
    simp [h1, h2]
  · have h2 : ¬((b = i ∧ a = j) ∨ (b = j ∧ a = i)) := by tauto
    simp [h1, h2, h a b]

theorem msetSym_MDiag0 {m : DMat} (h : MDiag0 m) {i j : Nat} (hij : i ≠ j) (v : Int) :
    MDiag0 (msetSym m i j v) := by
  intro a
  rw [msetSym_apply]
  have hc : ¬((a = i ∧ a = j) ∨ (a = j ∧ a = i)) := by
    rintro (⟨rfl, rfl⟩ | ⟨rfl, rfl⟩) <;> exact hij rfl
  simp [hc, h a]

theorem mset_diag_MSym {m : DMat} (h : MSym m) (i : Nat) (v : Int) :
    MSym (mset m i i v) := by
  intro a b
  unfold mset
  by_cases h1 : a = i ∧ b = i
  · have h2 : b = i ∧ a = i := ⟨h1.2, h1.1⟩
    simp [h1, h2]
  · have h2 : ¬(b = i ∧ a = i) := fun hh => h1 ⟨hh.2, hh.1⟩
    simp [h1, h2, h a b]

theorem mset_diag_MDiag0 {m : DMat} (h : MDiag0 m) (i : Nat) :
    MDiag0 (mset m i i 0) := by
  intro a
  unfold mset
  by_cases h1 : a = i ∧ a = i <;> simp [h1, h a]

theorem clearDiag_foldl_MSym (l : List Nat) (m : DMat) (h : MSym m) :
    MSym (l.foldl (fun acc i => mset acc i i 0) m) := by
  induction l generalizing m with
  | nil => exact h
  | cons i l ih => exact ih _ (mset_diag_MSym h i 0)

theorem clearDiag_foldl_MDiag0 (l : List Nat) (m : DMat) (h : MDiag0 m) :
    MDiag0 (l.foldl (fun acc i => mset acc i i 0) m) := by
  induction l generalizing m with
  | nil => exact h
  | cons i l ih => exact ih _ (mset_diag_MDiag0 h i)

theorem zeroM_MSym : MSym zeroM := fun _ _ => rfl

theorem zeroM_MDiag0 : MDiag0 zeroM := fun _ => rfl

theorem clearDiag_MSym (n : Nat) : MSym (clearDiag n zeroM) :=
  clearDiag_foldl_MSym _ _ zeroM_MSym

theorem clearDiag_MDiag0 (n : Nat) : MDiag0 (clearDiag n zeroM) :=
  clearDiag_foldl_MDiag0 _ _ zeroM_MDiag0

/-! Invariants of the mirrored builders. -/

theorem lowDiagRowLoop_MSym (c : Nat) :
    ∀ (fs : FS) (m : DMat) (i j : Nat) (m' : DMat) (fs' : FS),
      MSym m → lowDiagRowLoop fs m i j c = .ok m' fs' → MSym m' := by
  induction c with
  | zero =>
    intro fs m i j m' fs' hm h
    simp only [lowDiagRowLoop] at h
    cases h
    exact hm
  | succ c ih =>
    intro fs m i j m' fs' hm h
    simp only [lowDiagRowLoop] at h
    cases hr : readInt fs with
    | none => rw [hr] at h; cases h
    | some p =>
      obtain ⟨v, fs2⟩ := p
      rw [hr] at h
      exact ih fs2 (msetSym m i j v) i (j + 1) m' fs' (msetSym_MSym hm i j v) h

theorem lowDiagOuterLoop_MSym (c : Nat) :
    ∀ (fs : FS) (m : DMat) (i : Nat) (m' : DMat) (fs' : FS),
      MSym m → lowDiagOuterLoop fs m i c = .ok m' fs' → MSym m' := by
  induction c with
  | zero =>
    intro fs m i m' fs' hm h
    simp only [lowDiagOuterLoop] at h
    cases h
    exact hm
  | succ c ih =>
    intro fs m i m' fs' hm h
    simp only [lowDiagOuterLoop] at h
    cases hb : lowDiagRowLoop fs m i 0 (i + 1) with
    | err a b => rw [hb] at h; cases h
    | ok m2 fs2 =>
      rw [hb] at h
      exact ih fs2 m2 (i + 1) m' fs' (lowDiagRowLoop_MSym (i + 1) fs m i 0 m2 fs2 hm hb) h

theorem buildLowDiagRow_MSym (fs : FS) (n : Nat) (m0 m : DMat) (fs' : FS)
    (h0 : MSym m0) (h : buildLowDiagRow fs n m0 = .ok m fs') : MSym m :=
  lowDiagOuterLoop_MSym n fs m0 0 m fs' h0 h

theorem upperRowLoop_MSym (c : Nat) :
    ∀ (fs : FS) (m : DMat) (i j : Nat) (m' : DMat) (fs' : FS),
      MSym m → upperRowLoop fs m i j c = .ok m' fs' → MSym m' := by
  induction c with
  | zero =>
    intro fs m i j m' fs' hm h
    simp only [upperRowLoop] at h
    cases h
    exact hm
  | succ c ih =>
    intro fs m i j m' fs' hm h
    simp only [upperRowLoop] at h
    cases hr : readInt fs with
    | none => rw [hr] at h; cases h
    | some p =>
      obtain ⟨v, fs2⟩ := p
      rw [hr] at h
      exact ih fs2 (msetSym m i j v) i (j + 1) m' fs' (msetSym_MSym hm i j v) h

theorem upperRowLoop_MDiag0 (c : Nat) :
    ∀ (fs : FS) (m : DMat) (i j : Nat) (m' : DMat) (fs' : FS),
      i < j → MDiag0 m → upperRowLoop fs m i j c = .ok m' fs' → MDiag0 m' := by
  induction c with
  | zero =>
    intro fs m i j m' fs' hij hm h
    simp only [upperRowLoop] at h
    cases h
    exact hm
  | succ c ih =>
    intro fs m i j m' fs' hij hm h
    simp only [upperRowLoop] at h
    cases hr : readInt fs with
    | none => rw [hr] at h; cases h
    | some p =>
      obtain ⟨v, fs2⟩ := p
      rw [hr] at h
      exact ih fs2 (msetSym m i j v) i (j + 1) m' fs' (Nat.lt_succ_of_lt hij)
        (msetSym_MDiag0 hm (Nat.ne_of_lt hij) v) h

theorem upperOuterLoop_MSym (c : Nat) :
    ∀ (fs : FS) (m : DMat) (n i : Nat) (m' : DMat) (fs' : FS),
      MSym m → upperOuterLoop fs m n i c = .ok m' fs' → MSym m' := by
  induction c with
  | zero =>
    intro fs m n i m' fs' hm h
    simp only [upperOuterLoop] at h
    cases h
    exact hm
  | succ c ih =>
    intro fs m n i m' fs' hm h
    simp only [upperOuterLoop] at h
    cases hb : upperRowLoop fs m i (i + 1) (n - (i + 1)) with
    | err a b => rw [hb] at h; cases h
    | ok m2 fs2 =>
      rw [hb] at h
      exact ih fs2 m2 n (i + 1) m' fs'
        (upperRowLoop_MSym (n - (i + 1)) fs m i (i + 1) m2 fs2 hm hb) h

theorem upperOuterLoop_MDiag0 (c : Nat) :
    ∀ (fs : FS) (m : DMat) (n i : Nat) (m' : DMat) (fs' : FS),
      MDiag0 m → upperOuterLoop fs m n i c = .ok m' fs' → MDiag0 m' := by
  induction c with
  | zero =>
    intro fs m n i m' fs' hm h
    simp only [upperOuterLoop] at h
    cases h
    exact hm
  | succ c ih =>
    intro fs m n i m' fs' hm h
    simp only [upperOuterLoop] at h
    cases hb : upperRowLoop fs m i (i + 1) (n - (i + 1)) with
    | err a b => rw [hb] at h; cases h
    | ok m2 fs2 =>
      rw [hb] at h
      exact ih fs2 m2 n (i + 1) m' fs'
        (upperRowLoop_MDiag0 (n - (i + 1)) fs m i (i + 1) m2 fs2 (Nat.lt_succ_self i) hm hb) h

theorem buildUpperRow_MSym (fs : FS) (n : Nat) (m0 m : DMat) (fs' : FS)
    (h0 : MSym m0) (h : buildUpperRow fs n m0 = .ok m fs') : MSym m :=
  upperOuterLoop_MSym n fs m0 n 0 m fs' h0 h

theorem buildUpperRow_MDiag0 (fs : FS) (n : Nat) (m0 m : DMat) (fs' : FS)
    (h0 : MDiag0 m0) (h : buildUpperRow fs n m0 = .ok m fs') : MDiag0 m :=
  upperOuterLoop_MDiag0 n fs m0 n 0 m fs' h0 h

/-! Field-table lemmas. -/

theorem mapLookup_mapInsert (m : EntryMap) (k k' : String) (v : EntryVal)
    (h : (mapLookup m k).isSome = true) :
    mapLookup (mapInsert m k' v) k = mapLookup m k := by
  unfold mapInsert
  cases hk' : mapLookup m k' with
  | some _ => rfl
  | none =>
    by_cases he : k = k'
    · subst he
      rw [hk'] at h
      simp at h
    · unfold mapLookup at *
      simp [List.lookup, beq_eq_false_iff_ne.mpr he]

/-! Line-classifier lemmas. -/

theorem mkClass_ne_malformed (key rest : List Char) : mkClass key rest ≠ .malformed := by
  unfold mkClass
  split <;> simp

theorem classifyChars_append (pre key rest : List Char)
    (hpre : ∀ c ∈ pre, isWordChar c = false)
    (hk : key ≠ []) (hkey : ∀ c ∈ key, isWordChar c = true)
    (hrest : ∀ c ∈ rest.take 1, isWordChar c = false) :
    classifyChars (pre ++ (key ++ rest)) = mkClass key rest := by
  induction pre with
  | nil =>
    cases key with
    | nil => exact absurd rfl hk
    | cons kc ks =>
      have hkw : isWordChar kc = true := hkey kc (by simp)
      have h2 := takeWhile_append_all isWordChar ks rest
        (fun c hc => hkey c (by simp [hc])) hrest
      simp [classifyChars, hkw, h2.1, h2.2]
  | cons c pre ih =>
    have hc : isWordChar c = false := hpre c (by simp)
    have ih' := ih (fun x hx => hpre x (by simp [hx]))
    simpa [classifyChars, hc] using ih'

theorem classifyChars_malformed_iff (l : List Char) :
    classifyChars l = .malformed ↔ ∀ c ∈ l, isWordChar c = false := by
  induction l with
  | nil => simp [classifyChars]
  | cons c cs ih =>
    cases hc : isWordChar c with
    | true => simp [classifyChars, hc, mkClass_ne_malformed]
    | false => simp [classifyChars, hc, ih]

/-! Character-class and stoi lemmas. -/

theorem char_ne_of_isDigit {c : Char} (h : c.isDigit = true) (d : Char)
    (hd : d.isDigit = false) : c ≠ d := by
  rintro rfl
  rw [h] at hd
  exact absurd hd (by decide)

theorem isWS_eq_false_of_isDigit {c : Char} (h : c.isDigit = true) : isWS c = false := by
  unfold isWS
  rw [beq_eq_false_iff_ne.mpr (char_ne_of_isDigit h ' ' (by decide)),
      beq_eq_false_iff_ne.mpr (char_ne_of_isDigit h '\n' (by decide)),
      beq_eq_false_iff_ne.mpr (char_ne_of_isDigit h '\r' (by decide)),
      beq_eq_false_iff_ne.mpr (char_ne_of_isDigit h '\t' (by decide)),
      beq_eq_false_iff_ne.mpr (char_ne_of_isDigit h '\x0c' (by decide)),
      beq_eq_false_iff_ne.mpr (char_ne_of_isDigit h '\x0b' (by decide))]
  rfl

theorem stoi_digits_prefix (ds rest : List Char)
    (hne : ds ≠ []) (hdig : ∀ c ∈ ds, c.isDigit = true)
    (hrest : ∀ c ∈ rest.take 1, c.isDigit = false)
    (hrange : (digitsVal ds : Int) ≤ 2147483647) :
    stoi (ds ++ rest).asString = some (digitsVal ds : Int) := by
  cases ds with
  | nil => exact absurd rfl hne
  | cons d ds' =>
    have hd : d.isDigit = true := hdig d (by simp)
    have hws : isWS d = false := isWS_eq_false_of_isDigit hd
    have hminus : ¬(d = '-') := char_ne_of_isDigit hd '-' (by decide)
    have hplus : ¬(d = '+') := char_ne_of_isDigit hd '+' (by decide)
    have htake := takeWhile_append_all Char.isDigit (d :: ds') rest hdig hrest
    have hvnonneg : (0 : Int) ≤ (digitsVal (d :: ds') : Int) := Int.ofNat_nonneg _
    unfold stoi readIntCore
    have hdata : ((d :: ds') ++ rest).asString.data = (d :: ds') ++ rest := rfl
    rw [hdata]
    simp only [List.cons_append, List.dropWhile_cons, hws, Bool.false_eq_true, if_false,
      if_neg hminus, if_neg hplus]
    rw [show (d :: (ds' ++ rest)).takeWhile Char.isDigit = d :: ds' from htake.1]
    rw [if_neg (by simp)]
    rw [if_neg (by omega)]

/-! The claims. -/

/-- C1: the file declaring DIMENSION 4 and EDGE_WEIGHT_FORMAT
LOWER_DIAG_ROW whose edge-weight section holds 0 1 0 2 3 0 4 5 6 0 parses
successfully, and the resulting distance matrix is
[[0,1,2,4],[1,0,3,5],[2,3,0,6],[4,5,6,0]]: the lower-diagonal-row builder
reads the lower triangle row-major, mirrors every value, and takes the
diagonal from the stream. -/
theorem C1_lower_diag_row_file :
    (Parse c1File).isOk = true ∧
    (Parse c1File).matrixLists =
      some [[0, 1, 2, 4], [1, 0, 3, 5], [2, 3, 0, 6], [4, 5, 6, 0]] := by
  decide

/-- C2 counterexample: a successful FULL_MATRIX parse with token stream
0 1 2 0 produces matrix[0][1] = 1 but matrix[1][0] = 2 (not symmetric),
and a successful LOWER_DIAG_ROW parse with token stream 7 produces
matrix[0][0] = 7 (diagonal not zero), so the claim fails for two of the
three formats. -/
theorem C2_counterexample :
    (Parse c2FileA).isOk = true ∧
    (Parse c2FileA).matAt 0 1 = some 1 ∧
    (Parse c2FileA).matAt 1 0 = some 2 ∧
    (Parse c2FileB).isOk = true ∧
    (Parse c2FileB).matAt 0 0 = some 7 := by
  decide

/-- C2 amended: for every successful ParseEdgeWeights whose validated
EDGE_WEIGHT_FORMAT is UPPER_ROW or LOWER_DIAG_ROW, the resulting distance
matrix is symmetric (every streamed value is mirrored into (i,j) and
(j,i)); for UPPER_ROW the diagonal is additionally zero, because only the
pre-zeroing loop ever writes it.  FULL_MATRIX reads every cell
independently and LOWER_DIAG_ROW reads the diagonal from the stream, so
neither guarantees those properties. -/
theorem C2_amended_symmetry (st st' : PState) (fmt : String)
    (hfmt : GetEntryValueStr st.entry_map "EDGE_WEIGHT_FORMAT" = some fmt)
    (hf : fmt = "UPPER_ROW" ∨ fmt = "LOWER_DIAG_ROW")
    (hok : ParseEdgeWeights st = .ok st') :
    ∃ n m, st'.inst.dmatrix = some (n, m) ∧ MSym m ∧ (fmt = "UPPER_ROW" → MDiag0 m) := by
  unfold ParseEdgeWeights at hok
  split at hok
  · exact StepRes.noConfusion hok
  next nInt hn =>
    split at hok
    · exact StepRes.noConfusion hok
    next fmt2 hfmt2 =>
      rw [hfmt] at hfmt2
      injection hfmt2 with hf2
      subst hf2
      cases hf with
      | inl hfe =>
        subst hfe
        rw [show ewFormats.lookup "UPPER_ROW" = some buildUpperRow from rfl] at hok
        split at hok
        · next hcon => exact Option.noConfusion hcon
        next builder hb =>
          injection hb with hb2
          subst hb2
          split at hok
          · exact StepRes.noConfusion hok
          next m fs2 hb3 =>
            injection hok with h
            subst h
            exact ⟨nInt.toNat, m, rfl,
              buildUpperRow_MSym _ _ _ _ _ (clearDiag_MSym _) hb3,
              fun _ => buildUpperRow_MDiag0 _ _ _ _ _ (clearDiag_MDiag0 _) hb3⟩
      | inr hfe =>
        subst hfe
        rw [show ewFormats.lookup "LOWER_DIAG_ROW" = some buildLowDiagRow from rfl] at hok
        split at hok
        · next hcon => exact Option.noConfusion hcon
        next builder hb =>
          injection hb with hb2
          subst hb2
          split at hok
          · exact StepRes.noConfusion hok
          next m fs2 hb3 =>
            injection hok with h
            subst h
            refine ⟨nInt.toNat, m, rfl,
              buildLowDiagRow_MSym _ _ _ _ _ (clearDiag_MSym _) hb3, ?_⟩
            intro he
            exact absurd he (by decide)

/-- C2 witness: the amended theorem applied to a concrete 1-node
UPPER_ROW dispatcher state. -/
theorem C2_amended_symmetry_witness :
    ∃ n m, c2StOut.inst.dmatrix = some (n, m) ∧ MSym m ∧
      ("UPPER_ROW" = "UPPER_ROW" → MDiag0 m) :=
  C2_amended_symmetry c2St c2StOut "UPPER_ROW" rfl (Or.inl rfl) rfl

/-- C3 counterexample: validating DIMENSION 3 and then DIMENSION 5 leaves
the field table holding 3, the earlier value, not 5 as the claim
requires. -/
theorem C3_counterexample :
    StepRes.entryInt (runSpecs (initState "") [("DIMENSION", "3"), ("DIMENSION", "5")])
      "DIMENSION" = some 3 ∧
    ¬ StepRes.entryInt (runSpecs (initState "") [("DIMENSION", "3"), ("DIMENSION", "5")])
      "DIMENSION" = some 5 := by
  decide

/-- C3 amended: the field table keeps the value of the earliest
successfully validated entry for a key.  std::map insert stores only
absent keys, so once a key is bound, any later validated entry (for that
key or any other) leaves its binding unchanged, and a later
GetEntryValue lookup observes the first validated value. -/
theorem C3_first_write_wins (st st' : PState) (k k' v : String)
    (hbound : (mapLookup st.entry_map k).isSome = true)
    (hok : ParseSpecification st k' v = .ok st') :
    mapLookup st'.entry_map k = mapLookup st.entry_map k := by
  unfold ParseSpecification at hok
  split_ifs at hok
  all_goals
    first
      | exact StepRes.noConfusion hok
      | (injection hok with h; subst h;
         exact mapLookup_mapInsert st.entry_map k _ _ hbound)
      | (split at hok
         · exact StepRes.noConfusion hok
         · split at hok
           · exact StepRes.noConfusion hok
           · injection hok with h; subst h
             exact mapLookup_mapInsert st.entry_map k _ _ hbound)

/-- C3 witness: the amended theorem applied to a state binding DIMENSION
to 3 and a later COMMENT entry. -/
theorem C3_first_write_wins_witness :
    mapLookup c3StC.entry_map "DIMENSION" = mapLookup c3St.entry_map "DIMENSION" :=
  C3_first_write_wins c3St c3StC "DIMENSION" "COMMENT" "hi" rfl rfl

/-- C4: a DIMENSION entry whose value has no leading digits makes
std::stoi throw; no handler in the parser catches that exception (only
std::regex_error is caught), so Parse ends in an uncaught fault instead
of the InvalidFieldValue error result the claim requires.  The value 0
does take the error-return path. -/
theorem C4_nonnumeric_dimension_fault :
    Parse "DIMENSION: abc\nEOF\n" = .fault ∧
    ParseSpecification (initState "") "DIMENSION" "abc" = .fault ∧
    ParseSpecification (initState "") "DIMENSION" "0" = .err .invalidFieldValue :=
  ⟨rfl, rfl, rfl⟩

/-- C5: when the line stream is exhausted before the EOF sentinel is
read, the driver loop never terminates: getline on the failed stream
yields an empty line, which is classified blank and skipped, forever.
There is no UnexpectedEOF path in the code. -/
theorem C5_missing_sentinel_diverges :
    Parse "" = .diverge ∧
    Parse "NAME: x\n" = .diverge ∧
    Parse "DIMENSION: 3\nCOMMENT: truncated file" = .diverge :=
  ⟨rfl, rfl, rfl⟩

/-- C6: the display-data bounds check covers only the upper end.  A
1-based node number 0 yields the 0-based index -1, which passes the
node >= n test and then indexes the visited vector out of bounds (a
fault), instead of the InvalidNode error the claim requires; duplicate
and too-large indices do produce InvalidNode. -/
theorem C6_negative_node_unchecked :
    Parse c6FileA = .fault ∧
    Parse c6FileB = .err .invalidNode ∧
    Parse c6FileC = .err .invalidNode :=
  ⟨rfl, rfl, rfl⟩

/-- C7 counterexample: a line whose identifier is preceded by other
characters still classifies as a header entry (regex_search matches
anywhere in the line), and an identifier followed by a colon without a
space classifies as a data marker; neither fails with MalformedLine as
the claim requires. -/
theorem C7_counterexample :
    classifyLine "-NAME: x" = .entry "NAME" "x" ∧
    classifyLine "KEY:value" = .marker "KEY" := by
  decide

/-- C7 amended: classification searches for the first identifier run
anywhere in the line; `mkClass` then makes the line a header entry when
that run is immediately followed by colon-space, the value being the
remainder truncated at the first embedded carriage return (the
ECMAScript dot does not match CR) and right-trimmed, and a data marker
otherwise; a line fails with MalformedLine exactly when it contains no
identifier character at all.  The last conjunct shows the CR truncation
on a concrete line. -/
theorem C7_classification (line : String) :
    (classifyLine line = .malformed ↔ ∀ c ∈ line.data, isWordChar c = false) ∧
    (∀ pre key rest, line.data = pre ++ (key ++ rest) →
      (∀ c ∈ pre, isWordChar c = false) → key ≠ [] →
      (∀ c ∈ key, isWordChar c = true) → (∀ c ∈ rest.take 1, isWordChar c = false) →
      classifyLine line = mkClass key rest) ∧
    classifyLine "TYPE: TSP\rjunk" = .entry "TYPE" "TSP" := by
  refine ⟨classifyChars_malformed_iff line.data, ?_, by decide⟩
  intro pre key rest hsplit h1 h2 h3 h4
  unfold classifyLine
  rw [hsplit]
  exact classifyChars_append pre key rest h1 h2 h3 h4

/-- C7 witness: the amended theorem applied to the line "-AB: c", whose
first identifier run is AB. -/
theorem C7_classification_witness :
    classifyLine "-AB: c" = mkClass ['A', 'B'] [':', ' ', 'c'] :=
  (C7_classification "-AB: c").2.1 ['-'] ['A', 'B'] [':', ' ', 'c'] rfl
    (by decide) (by decide) (by decide) (by decide)

/-- C8: whenever the next non-blank line of the stream is the EOF
sentinel and no distance matrix has been populated, the driver loop
returns the MissingDistanceMatrix failure (an absent result). -/
theorem C8_missing_distance_matrix (fuel : Nat) (st : PState) (fs1 : FS)
    (hline : getNonBlank st.fs = some ("EOF", fs1))
    (hmat : st.inst.dmatrix = none) :
    parseLoop (fuel + 1) st = .err .missingDistanceMatrix := by
  unfold parseLoop
  rw [hline]
  simp [hmat]

/-- C8 witness: the theorem applied to the initial state of a file
holding only the sentinel. -/
theorem C8_missing_distance_matrix_witness :
    parseLoop 1 (initState "EOF\n") = .err .missingDistanceMatrix :=
  C8_missing_distance_matrix 0 (initState "EOF\n") ⟨[], false⟩ rfl rfl

/-- C9: a DIMENSION value made of a positive decimal digit run (within
the int range) followed by a non-digit remainder validates successfully
and stores the numeric prefix in the field table; the trailing
characters are discarded, exactly as std::stoi discards them. -/
theorem C9_dimension_prefix_discarded (st : PState) (ds rest : List Char)
    (hne : ds ≠ []) (hdig : ∀ c ∈ ds, c.isDigit = true)
    (hrest : ∀ c ∈ rest.take 1, c.isDigit = false)
    (hpos : 0 < digitsVal ds) (hrange : (digitsVal ds : Int) ≤ 2147483647) :
    ParseSpecification st "DIMENSION" (ds ++ rest).asString =
      .ok {st with entry_map := mapInsert st.entry_map "DIMENSION" (.int (digitsVal ds))} := by
  have hstoi := stoi_digits_prefix ds rest hne hdig hrest hrange
  unfold ParseSpecification
  rw [if_neg (by decide), if_neg (by decide), if_neg (by decide), if_pos rfl]
  simp only [hstoi]
  rw [if_neg (by omega)]

/-- C9 witness: the theorem applied to the value 3abc. -/
theorem C9_dimension_prefix_discarded_witness :
    ParseSpecification (initState "") "DIMENSION" (['3'] ++ "abc".data).asString =
      .ok {initState "" with
           entry_map := mapInsert (initState "").entry_map "DIMENSION"
             (.int (digitsVal ['3']))} :=
  C9_dimension_prefix_discarded (initState "") ['3'] "abc".data
    (by decide) (by decide) (by decide) (by decide) (by decide)

/-- C10: with DIMENSION 1 and EDGE_WEIGHT_FORMAT UPPER_ROW, the builder
loops never execute, so it reads nothing from the stream (zero tokens,
any stream, even an empty one) and succeeds; ParseEdgeWeights then stores
the 1-by-1 matrix whose only cell is the pre-zeroed diagonal, [[0]]. -/
theorem C10_dimension_one_upper_row (fs : FS) (m0 : DMat) (st : PState)
    (h1 : GetEntryValueInt st.entry_map "DIMENSION" = some 1)
    (h2 : GetEntryValueStr st.entry_map "EDGE_WEIGHT_FORMAT" = some "UPPER_ROW") :
    buildUpperRow fs 1 m0 = .ok m0 fs ∧
    ParseEdgeWeights st =
      .ok {st with inst := {st.inst with dmatrix := some (1, clearDiag 1 zeroM)}} ∧
    matToLists 1 (clearDiag 1 zeroM) = [[0]] := by
  refine ⟨rfl, ?_, by decide⟩
  unfold ParseEdgeWeights
  rw [h1, h2]
  rfl

/-- C10 witness: the theorem applied to an empty stream and a concrete
1-node UPPER_ROW dispatcher state. -/
theorem C10_dimension_one_upper_row_witness :
    buildUpperRow ⟨[], false⟩ 1 zeroM = .ok zeroM ⟨[], false⟩ ∧
    ParseEdgeWeights c10St =
      .ok {c10St with inst := {c10St.inst with dmatrix := some (1, clearDiag 1 zeroM)}} ∧
    matToLists 1 (clearDiag 1 zeroM) = [[0]] :=
  C10_dimension_one_upper_row ⟨[], false⟩ zeroM c10St rfl rfl
